import Mathlib

/-!
Verification of the EPFO data-extraction tool (`src/main.py`) against its
specification.  The Python source is shallowly embedded: pure string and
list manipulations become Lean functions, the Playwright/DOM environment
becomes explicit input data (with `Except` modelling calls that may raise
`PlaywrightError`), and the worker/protocol control flow becomes total
Lean functions producing the list of `ResultEvent`s that the code would
put on the result queue.  Spreadsheet/archive serialization is an I/O
sink per the spec; it is modelled as data recording exactly the arguments
the code passes to it.  String primitives model Python semantics on
ASCII text.
-/

namespace EpfoScraper

/-! ### Python string primitives (ASCII fragment) -/

/-- ASCII whitespace recognised by Python `str.strip()`. -/
def pyWs (c : Char) : Bool :=
  c = ' ' || c = '\t' || c = '\n' || c = '\r' || c = '\x0b' || c = '\x0c'

/-- Python `str.strip()` on ASCII whitespace. -/
def pyStrip (s : String) : String :=
  ⟨((s.data.dropWhile pyWs).reverse.dropWhile pyWs).reverse⟩

/-- Helper for `pyTitle`: the Bool records whether the previous character
was cased (a letter). -/
def pyTitleAux : Bool → List Char → List Char
  | _, [] => []
  | prevCased, c :: cs =>
    if c.isAlpha then
      (if prevCased then c.toLower else c.toUpper) :: pyTitleAux true cs
    else
      c :: pyTitleAux false cs

/-- Python `str.title()` (ASCII): the first letter of every maximal
letter run is uppercased, the rest lowercased. -/
def pyTitle (s : String) : String := ⟨pyTitleAux false s.data⟩

/-- Digit run of a Python integer literal: digits with single
underscores allowed between digits. -/
def pyDigitsAux : Nat → List Char → Option Nat
  | acc, [] => some acc
  | acc, c :: cs =>
    if c.isDigit then pyDigitsAux (10 * acc + (c.toNat - 48)) cs
    else if c = '_' then
      match cs with
      | d :: ds => if d.isDigit then pyDigitsAux (10 * acc + (d.toNat - 48)) ds else none
      | [] => none
    else none

/-- Nonempty digit sequence. -/
def pyIntOfDigits : List Char → Option Nat
  | [] => none
  | c :: cs => if c.isDigit then pyDigitsAux (c.toNat - 48) cs else none

/-- Python `int(str)` (ASCII): optional surrounding whitespace, optional
sign, digits (underscores between digits allowed).  `none` models a
`ValueError`. -/
def pyInt (s : String) : Option Int :=
  match (pyStrip s).data with
  | [] => none
  | '+' :: cs => (pyIntOfDigits cs).map Int.ofNat
  | '-' :: cs => (pyIntOfDigits cs).map (fun n => -(n : Int))
  | cs => (pyIntOfDigits cs).map Int.ofNat

/-- First index of `x` in a list, modelling Python `list.index`
(the raising variant is wrapped by its caller). -/
def pyListIndex (x : String) : List String → Option Nat
  | [] => none
  | y :: ys => if y = x then some 0 else (pyListIndex x ys).map (· + 1)

/-- `needle` is a prefix of `hay` (character lists). -/
def chPre : List Char → List Char → Bool
  | [], _ => true
  | _ :: _, [] => false
  | a :: as, b :: bs => a == b && chPre as bs

/-- `needle` occurs somewhere in `hay` (character lists). -/
def chSub (needle : List Char) : List Char → Bool
  | [] => needle.isEmpty
  | b :: bs => chPre needle (b :: bs) || chSub needle bs

/-- Python `needle in hay` on strings. -/
def strHasSub (hay needle : String) : Bool := chSub needle.data hay.data

/-! ### `get_month_index` (src/main.py lines 173-178) -/

/-- The month-abbreviation table from `get_month_index`. -/
def months : List String :=
  ["Jan", "Feb", "Mar", "Apr", "May", "Jun", "Jul", "Aug", "Sep", "Oct", "Nov", "Dec"]

/-- `get_month_index(month_str)`: `months.index(month_str.title()) + 1`,
with the `ValueError` of a missing entry caught and turned into `-1`. -/
def get_month_index (month_str : String) : Int :=
  match pyListIndex (pyTitle month_str) months with
  | some i => (i : Int) + 1
  | none => -1

/-! ### Dates (Python `datetime(year, month, 1)` values) -/

/-- A `datetime(year, month, 1)` value; only year and month vary in the
program. -/
structure PyDate where
  year : Int
  month : Int
deriving DecidableEq, Repr

/-- `datetime(y, m, 1)`: `none` models the `ValueError` raised for an
out-of-range year or month. -/
def mk_datetime (y m : Int) : Option PyDate :=
  if 1 ≤ y ∧ y ≤ 9999 ∧ 1 ≤ m ∧ m ≤ 12 then some ⟨y, m⟩ else none

/-- `datetime` comparison restricted to day-1 dates: lexicographic on
(year, month). -/
def pyDateLe (a b : PyDate) : Bool :=
  decide (a.year < b.year ∨ (a.year = b.year ∧ a.month ≤ b.month))

/-! ### Result events and commands (the two queues) -/

/-- A message on `result_queue`. -/
inductive Event where
  | status_update (msg : String)
  | error (msg : String)
  | info (msg : String)
  | browser_opened
  | login_verified (b : Bool)
deriving DecidableEq, Repr

/-- Whether an event is an `('error', …)` tuple. -/
def Event.isError : Event → Bool
  | .error _ => true
  | _ => false

/-- A message on `command_queue`. -/
inductive Command where
  | shutdown
  | open_login_page
  | verify_login
  | run_uan (uans : List String) (output_file : String)
  | run_ecr (start_date end_date : PyDate)
  | run_msd (uans : List String)
deriving DecidableEq, Repr

/-! ### The worker loop (src/main.py lines 42-82)

The body of each non-shutdown iteration (the `elif` dispatch) is
abstracted as a function from the command to the events the handler puts
on the result queue, paired with `some msg` when the handler raises an
exception that escapes it (caught by the loop's `except Exception`). -/

/-- The `while True` loop of `playwright_worker`, processing a finite
prefix of the command queue.  An empty list means the worker is still
parked on `command_queue.get()`. -/
def workerLoop (dispatch : Command → List Event × Option String) :
    List Command → List Event
  | [] => []
  | c :: rest =>
    if c = Command.shutdown then
      [Event.status_update "Shutting down..."]
    else
      let r := dispatch c
      let here := match r.2 with
        | none => r.1
        | some m => r.1 ++ [Event.error ("An unexpected error occurred in the worker thread: " ++ m)]
      here ++ workerLoop dispatch rest

/-- `playwright_worker`: launch (a `some` launch value is the
`PlaywrightError` message of a failed launch), the Ready status, the
loop, and the final `browser.close()`.  The second component counts
`close()` calls: the loop is only ever left by the `shutdown` break, so
`close` runs exactly when a shutdown command is dequeued. -/
def playwright_worker (launch : Option String)
    (dispatch : Command → List Event × Option String)
    (cmds : List Command) : List Event × Nat :=
  match launch with
  | some e => ([Event.error ("Could not launch browser: " ++ e)], 0)
  | none =>
    (Event.status_update "Ready. Please log in to begin." :: workerLoop dispatch cmds,
     if Command.shutdown ∈ cmds then 1 else 0)

/-- The `verify_login` branch (src/main.py lines 61-66): the wait for
the post-login marker either succeeds (`none`) or raises a
`PlaywrightError` (`some msg`), which is caught and mapped to a negative
verification. -/
def verify_login_handler (wait_result : Option String) : List Event :=
  match wait_result with
  | none => [Event.login_verified true]
  | some _ => [Event.login_verified false]

/-- Bool-valued success test on `Except`. -/
def exOk {ε α : Type} : Except ε α → Bool
  | .ok _ => true
  | .error _ => false

/-! ### UAN Profile Lookup (`run_uan_extraction`, src/main.py lines 180-214)

The page environment: `nav` is the outcome of the navigation prologue
(`some msg` = `PlaywrightError`); `fetch u` is the outcome of the
fill/press/wait/read sequence for one UAN, yielding the raw inner texts
of the name, joining-date and exit-date cells of the first result row
(`error msg` = a `PlaywrightError` anywhere in that sequence, caught by
the per-UAN `except`). -/
structure UanEnv where
  nav : Option String
  fetch : String → Except String (String × String × String)

/-- The fixed column schema of the UAN output table, in insertion order
of the per-row dicts. -/
def uanColumns : List String := ["UAN", "Name", "Joining Date", "Exit Date"]

/-- The per-UAN `for` loop: one status event per UAN; a successful fetch
appends the record (cells stripped as in the source), a failed one is
only logged. -/
def uanLoop (fetch : String → Except String (String × String × String)) :
    List String → List Event × List (List String)
  | [] => ([], [])
  | u :: us =>
    let rest := uanLoop fetch us
    let ev := Event.status_update ("Extracting data for UAN: " ++ u ++ "...")
    match fetch u with
    | .ok (n, j, x) => (ev :: rest.1, [u, pyStrip n, pyStrip j, pyStrip x] :: rest.2)
    | .error _ => (ev :: rest.1, rest.2)

/-- `run_uan_extraction(page, data)`: events produced, and the written
spreadsheet (path, columns, rows) if any.  Serialization is an I/O sink:
the model records the exact arguments passed to it. -/
def run_uan_extraction (env : UanEnv) (uans : List String) (output_file : String) :
    List Event × Option (String × List String × List (List String)) :=
  let start := [Event.status_update "Starting UAN extraction..."]
  match env.nav with
  | some e =>
    (start ++ [Event.error ("Could not navigate to \x27Member Profile\x27: " ++ e)], none)
  | none =>
    let r := uanLoop env.fetch uans
    if r.2.isEmpty then
      (start ++ r.1 ++ [Event.info "No UAN data was extracted.",
        Event.status_update "UAN extraction finished."], none)
    else
      (start ++ r.1 ++ [Event.info ("UAN data extracted and saved to " ++ output_file),
        Event.status_update "UAN extraction finished."],
       some (output_file, uanColumns, r.2))

instance {ε α : Type} [DecidableEq ε] [DecidableEq α] : DecidableEq (Except ε α) := by
  intro a b
  cases a <;> cases b
  case error.error x y =>
    exact if h : x = y then .isTrue (by rw [h]) else .isFalse (by intro he; cases he; exact h rfl)
  case error.ok x y => exact .isFalse (by intro he; cases he)
  case ok.error x y => exact .isFalse (by intro he; cases he)
  case ok.ok x y =>
    exact if h : x = y then .isTrue (by rw [h]) else .isFalse (by intro he; cases he; exact h rfl)

/-! ### ECR Statement Downloader (`run_ecr_extraction`, src/main.py lines 216-266) -/

/-- One row of `table#tbRecentClaimList`.  The three cells the code
reads are given as read outcomes (`error` = `PlaywrightError` raised by
`inner_text`); `linkCount` is `row.locator('td:nth-child(10) a').count()`;
`linkFail` is a `PlaywrightError` raised by the click/download. -/
structure EcrRow where
  wageMonth : Except String String
  trrn : Except String String
  status : Except String String
  linkCount : Nat
  linkFail : Option String
deriving DecidableEq, Repr

/-- Helper for `pySplitChar`: the accumulator holds the current chunk
reversed. -/
def pySplitCharAux (sep : Char) : List Char → List Char → List String
  | [], acc => [⟨acc.reverse⟩]
  | c :: cs, acc =>
    if c = sep then ⟨acc.reverse⟩ :: pySplitCharAux sep cs []
    else pySplitCharAux sep cs (c :: acc)

/-- Python `s.split(sep)` for a one-character separator. -/
def pySplitChar (sep : Char) (s : String) : List String :=
  pySplitCharAux sep s.data []

/-- Parsing of the wage-month cell: `month_str, year_str =
wage_month_str.split('-')` (a `ValueError` unless exactly two parts),
`int(year_str)`, then `datetime(year, get_month_index(month_str), 1)`.
`none` models the `ValueError` of any step. -/
def ecrParseWage (s : String) : Option PyDate :=
  match pySplitChar '-' s with
  | [month_str, year_str] =>
    match pyInt year_str with
    | none => none
    | some y => mk_datetime y (get_month_index month_str)
  | _ => none

/-- The body of the per-row `try`: events emitted so far paired with the
outcome — `ok (some path)` a saved download, `ok none` a row that does
not qualify or has no link, `error` a raised
`PlaywrightError`/`ValueError` (events already queued are kept). -/
def ecrRowRaw (sd ed : PyDate) (r : EcrRow) : List Event × Except String (Option String) :=
  match r.wageMonth with
  | .error e => ([], .error e)
  | .ok wage_month_str =>
    match r.status with
    | .error e => ([], .error e)
    | .ok st =>
      if pyStrip st = "Payment Confirmed" then
        match ecrParseWage wage_month_str with
        | none => ([], .error "ValueError")
        | some wage_date =>
          if pyDateLe sd wage_date && pyDateLe wage_date ed then
            match r.trrn with
            | .error e => ([], .error e)
            | .ok tr =>
              let ev := Event.status_update ("Downloading PDF for " ++ pyStrip tr ++ "...")
              if r.linkCount > 0 then
                match r.linkFail with
                | some e => ([ev], .error e)
                | none =>
                  ([ev], .ok (some ("ecr_downloads/" ++ pyStrip tr ++ "_" ++ wage_month_str ++ ".pdf")))
              else ([ev], .ok none)
          else ([], .ok none)
      else ([], .ok none)

/-- The per-row `try`/`except (PlaywrightError, ValueError)`: a raise is
logged and the row contributes no download. -/
def ecrRowStep (sd ed : PyDate) (r : EcrRow) : List Event × Option String :=
  match ecrRowRaw sd ed r with
  | (evs, .ok f) => (evs, f)
  | (evs, .error _) => (evs, none)

/-- The `for row in rows` loop over one result page. -/
def ecrRowsLoop (sd ed : PyDate) : List EcrRow → List Event × List String
  | [] => ([], [])
  | r :: rs =>
    let a := ecrRowStep sd ed r
    let b := ecrRowsLoop sd ed rs
    (a.1 ++ b.1, a.2.toList ++ b.2)

/-- The pagination `while True` loop: the environment supplies the rows
of each page; the list ends at the page whose Next control is not
visible. -/
def ecrPagesLoop (sd ed : PyDate) : List (List EcrRow) → List Event × List String
  | [] => ([], [])
  | pg :: pgs =>
    let a := ecrRowsLoop sd ed pg
    let b := ecrPagesLoop sd ed pgs
    (a.1 ++ b.1, a.2 ++ b.2)

/-- Zero-padded decimal rendering of `strftime`. -/
def zeroPad (w : Nat) (n : Int) : String :=
  let s := toString n
  if s.length < w then ⟨List.replicate (w - s.length) '0'⟩ ++ s else s

/-- `d.strftime('%Y%m')` for a day-1 date. -/
def strftimeYm (d : PyDate) : String := zeroPad 4 d.year ++ zeroPad 2 d.month

/-- The zip file name built after pagination. -/
def ecrZipName (sd ed : PyDate) : String :=
  "ECR_Statements_" ++ strftimeYm sd ++ "_to_" ++ strftimeYm ed ++ ".zip"

/-- The navigation prologue outcome and the page contents for one ECR
run. -/
structure EcrEnv where
  nav : Option String
  pages : List (List EcrRow)

/-- `run_ecr_extraction(page, data)`: events, saved download paths, and
the created zip name if any. -/
def run_ecr_extraction (env : EcrEnv) (sd ed : PyDate) :
    List Event × List String × Option String :=
  let start := [Event.status_update "Starting ECR PDF extraction..."]
  match env.nav with
  | some e => (start ++ [Event.error ("Could not navigate to ECR page: " ++ e)], [], none)
  | none =>
    let r := ecrPagesLoop sd ed env.pages
    if r.2.isEmpty then
      (start ++ r.1 ++ [Event.info "No matching ECR statements found.",
        Event.status_update "ECR extraction finished."], r.2, none)
    else
      (start ++ r.1 ++ [Event.info ("ECR PDFs zipped to " ++ ecrZipName sd ed),
        Event.status_update "ECR extraction finished."], r.2, some (ecrZipName sd ed))

/-! ### Member Service Detail scraper (`run_msd_extraction`, src/main.py lines 269-355) -/

/-- One page of the `profileService` grid for one UAN.  `rows` holds,
for each `tr.jqgrow`, the `inner_text` outcomes of its `td` cells
(`error` = `PlaywrightError`); `pagerText` is the text of
`#profileServicePager_right`; `nextClass` is the `class` attribute of
the next-page control (`none` = attribute absent, read as `""`);
`nextNav` is a `PlaywrightError` raised by the next-click or the
subsequent wait. -/
structure MsdPage where
  rows : List (List (Except String String))
  pagerText : String
  nextClass : Option String
  nextNav : Option String
deriving DecidableEq, Repr

/-- The environment of one UAN inside the MSD task: `search` is the
outcome of fill/search/wait (`some` = `PlaywrightError`); `headersRead`
is the `all_inner_texts()` outcome on the header row. -/
structure MsdUanEnv where
  search : Option String
  headersRead : Except String (List String)
  pages : List MsdPage
deriving DecidableEq, Repr

/-- The header postprocessing of line 298:
`[h.strip() for h in headers if h.strip()][1:]`. -/
def msdHeaders (raw : List String) : List String :=
  ((raw.map pyStrip).filter (fun h => h != "")).drop 1

/-- `[cell.inner_text() for cell in cells[1:]]`: reads the tail cells
left to right, the first raise winning. -/
def readCells : List (Except String String) → Except String (List String)
  | [] => .ok []
  | c :: cs =>
    match c with
    | .error e => .error e
    | .ok t =>
      match readCells cs with
      | .error e => .error e
      | .ok ts => .ok (t :: ts)

/-- The `for row in rows` body applied to a whole page: each row is kept
as the texts of its cells with the first cell dropped. -/
def readRowsOfPage : List (List (Except String String)) → Except String (List (List String))
  | [] => .ok []
  | r :: rs =>
    match readCells (r.drop 1) with
    | .error e => .error e
    | .ok t =>
      match readRowsOfPage rs with
      | .error e => .error e
      | .ok ts => .ok (t :: ts)

/-- The pagination `while True` loop of lines 303-324, accumulating
`all_rows_data`.  Events are the next-page status updates; the `Except`
carries a `PlaywrightError` escaping the loop.  An exhausted page list
models a run whose environment provides no further pages. -/
def msdPagesLoop (uan : String) : List MsdPage → List (List String) →
    List Event × Except String (List (List String))
  | [], acc => ([], .ok acc)
  | p :: ps, acc =>
    if p.rows.isEmpty && acc.isEmpty && strHasSub p.pagerText "Member not found" then
      ([], .ok acc)
    else
      match readRowsOfPage p.rows with
      | .error e => ([], .error e)
      | .ok newRows =>
        let acc' := acc ++ newRows
        if strHasSub (p.nextClass.getD "") "ui-state-disabled" then
          ([], .ok acc')
        else
          let ev := Event.status_update
            ("UAN " ++ uan ++ ": Found multiple pages, going to next page...")
          match p.nextNav with
          | some e => ([ev], .error e)
          | none =>
            let rest := msdPagesLoop uan ps acc'
            (ev :: rest.1, rest.2)

/-- Search, header scrape and pagination for one UAN (lines 288-324):
the events emitted and either the (headers, rows) pair or the
`PlaywrightError` that escaped. -/
def msdScrapeUan (uan : String) (env : MsdUanEnv) :
    List Event × Except String (List String × List (List String)) :=
  match env.search with
  | some e => ([], .error e)
  | none =>
    match env.headersRead with
    | .error e => ([], .error e)
    | .ok raw =>
      match msdPagesLoop uan env.pages [] with
      | (evs, .error e) => (evs, .error e)
      | (evs, .ok rows) => (evs, .ok (msdHeaders raw, rows))

/-- The observable outcome of one MSD task: the result-queue events, the
per-UAN spreadsheet files written (path, headers, rows — serialization
is a sink recording its arguments), the files deleted while zipping, the
zip created if any, and whether the temporary directory was removed. -/
structure MsdResult where
  events : List Event
  files : List (String × List String × List (List String))
  removed : List String
  zipName : Option String
  dirRemoved : Bool
deriving Repr

/-- The environment of a whole MSD run. -/
structure MsdEnv where
  nav : Option String
  perUan : String → MsdUanEnv

/-- The `for uan in uans` loop inside the big `try` (lines 286-332):
events, files written so far, and whether a `PlaywrightError` aborted
the loop (in which case the error event has already been appended). -/
def msdLoop (perUan : String → MsdUanEnv) : List String →
    List Event × List (String × List String × List (List String)) × Bool
  | [] => ([], [], false)
  | u :: us =>
    match msdScrapeUan u (perUan u) with
    | (sev, .error e) =>
      (Event.status_update ("Processing UAN: " ++ u) ::
        sev ++ [Event.error ("An error occurred during MSD extraction: " ++ e)], [], true)
    | (sev, .ok (headers, rows)) =>
      let here := if rows.isEmpty then [] else
        [("msd_excel_files/" ++ u ++ ".xlsx", headers, rows)]
      let rest := msdLoop perUan us
      (Event.status_update ("Processing UAN: " ++ u) :: sev ++ rest.1,
       here ++ rest.2.1, rest.2.2)

/-- `run_msd_extraction(page, data)`. -/
def run_msd_extraction (env : MsdEnv) (uans : List String) : MsdResult :=
  let ev0 := [Event.status_update "Starting Member Service Detail extraction...",
              Event.status_update "Navigating to Member Service Details page..."]
  match env.nav with
  | some e =>
    ⟨ev0 ++ [Event.error ("An error occurred during MSD extraction: " ++ e)], [], [], none, false⟩
  | none =>
    let r := msdLoop env.perUan uans
    if r.2.2 then
      ⟨ev0 ++ r.1, r.2.1, [], none, false⟩
    else if r.2.1.isEmpty then
      ⟨ev0 ++ r.1 ++ [Event.info "No data was extracted or saved.",
        Event.status_update "Member Service Detail extraction finished."], [], [], none, false⟩
    else
      ⟨ev0 ++ r.1 ++
        [Event.status_update ("Zipping " ++ toString r.2.1.length ++ " Excel files..."),
         Event.info "Task complete. All service details saved to Member_Service_Details.zip",
         Event.status_update "Member Service Detail extraction finished."],
       r.2.1, r.2.1.map (·.1), some "Member_Service_Details.zip", true⟩

/-! ### General helper lemmas -/

/-- The last element of an append is the last element of a nonempty
right part. -/
theorem lastOfAppend {α : Type} (l₁ : List α) {l₂ : List α} {x : α}
    (h : l₂.getLast? = some x) : (l₁ ++ l₂).getLast? = some x := by
  induction l₁ with
  | nil => simpa using h
  | cons a t ih =>
    rw [List.cons_append]
    cases ht : t ++ l₂ with
    | nil =>
      rcases List.append_eq_nil.mp ht with ⟨_, h2⟩
      subst h2; simp at h
    | cons b u =>
      simp only [ht] at ih ⊢
      rw [List.getLast?_cons_cons]
      exact ih

/-- `pyListIndex` returns `none` exactly on absent entries. -/
theorem pyListIndex_of_not_mem {x : String} :
    ∀ {l : List String}, x ∉ l → pyListIndex x l = none := by
  intro l
  induction l with
  | nil => intro _; rfl
  | cons y ys ih =>
    intro h
    have h1 : ¬ y = x := fun he => h (he ▸ List.mem_cons_self y ys)
    have h2 : x ∉ ys := fun hm => h (List.mem_cons_of_mem y hm)
    simp [pyListIndex, h1, ih h2]

/-- Processing commands before any shutdown splits over append. -/
theorem workerLoop_append (dispatch : Command → List Event × Option String)
    {l₁ : List Command} (l₂ : List Command) (h : Command.shutdown ∉ l₁) :
    workerLoop dispatch (l₁ ++ l₂) = workerLoop dispatch l₁ ++ workerLoop dispatch l₂ := by
  induction l₁ with
  | nil => simp [workerLoop]
  | cons c cs ih =>
    have h1 : ¬ c = Command.shutdown := fun he => h (he ▸ List.mem_cons_self c cs)
    have h2 : Command.shutdown ∉ cs := fun hm => h (List.mem_cons_of_mem c hm)
    simp only [List.cons_append, workerLoop, if_neg h1, List.append_eq]
    rw [ih h2, List.append_assoc]

/-! ### C3, C5, C9: the worker boundary -/

/-- C3: for every command other than Shutdown, an exception escaping the
dispatched handler is caught inside the loop, converted into exactly one
trailing `('error', …)` event, and the loop then continues with the
remaining commands. -/
theorem worker_catches_handler_failure :
    ∀ (dispatch : Command → List Event × Option String) (c : Command)
      (rest : List Command) (evs : List Event) (m : String),
      c ≠ Command.shutdown → dispatch c = (evs, some m) →
      workerLoop dispatch (c :: rest) =
        evs ++ [Event.error ("An unexpected error occurred in the worker thread: " ++ m)] ++
          workerLoop dispatch rest := by
  intro dispatch c rest evs m hc hd
  simp only [workerLoop, if_neg hc, hd, List.append_assoc]

/-- Witness for C3 at a concrete failing handler and command. -/
theorem worker_catches_handler_failure_witness :
    workerLoop (fun _ => ([], some "boom")) [Command.verify_login] =
      [Event.error "An unexpected error occurred in the worker thread: boom"] := by
  rw [worker_catches_handler_failure (fun _ => ([], some "boom"))
    Command.verify_login [] [] "boom" (by decide) rfl]
  rfl

/-- C5: the `verify_login` handler always produces exactly one
`login_verified` event carrying `true` iff the marker wait succeeded,
and never an error event. -/
theorem verify_login_single_event :
    ∀ w : Option String,
      verify_login_handler w = [Event.login_verified w.isNone] ∧
      (verify_login_handler w).length = 1 ∧
      (verify_login_handler w).all (fun e => !e.isError) = true := by
  intro w
  cases w <;> simp [verify_login_handler, Event.isError, Option.isNone]

/-- C9: once a Shutdown command is dequeued, the commands behind it are
never processed (the run is identical whatever follows the shutdown),
the final event is the single shutting-down StatusUpdate, and the
browser is closed at most once in every run. -/
theorem shutdown_final :
    ∀ (dispatch : Command → List Event × Option String) (cs₁ cs₂ : List Command),
      Command.shutdown ∉ cs₁ →
      (playwright_worker none dispatch (cs₁ ++ Command.shutdown :: cs₂) =
        playwright_worker none dispatch (cs₁ ++ [Command.shutdown])) ∧
      ((playwright_worker none dispatch (cs₁ ++ Command.shutdown :: cs₂)).1.getLast? =
        some (Event.status_update "Shutting down...")) ∧
      (∀ (launch : Option String) (cmds : List Command),
        (playwright_worker launch dispatch cmds).2 ≤ 1) := by
  intro dispatch cs₁ cs₂ h
  have hloop : ∀ l₂ : List Command,
      workerLoop dispatch (cs₁ ++ Command.shutdown :: l₂) =
        workerLoop dispatch cs₁ ++ [Event.status_update "Shutting down..."] := by
    intro l₂
    rw [workerLoop_append dispatch _ h]
    simp [workerLoop]
  refine ⟨?_, ?_, ?_⟩
  · simp only [playwright_worker, hloop, hloop ([] : List Command)]
    have hmem : (Command.shutdown ∈ cs₁ ++ Command.shutdown :: cs₂) =
        (Command.shutdown ∈ cs₁ ++ [Command.shutdown]) := by
      simp
    rw [if_pos (by simp), if_pos (by simp)]
  · simp only [playwright_worker, hloop]
    rw [show Event.status_update "Ready. Please log in to begin." ::
          (workerLoop dispatch cs₁ ++ [Event.status_update "Shutting down..."]) =
        (Event.status_update "Ready. Please log in to begin." :: workerLoop dispatch cs₁) ++
          [Event.status_update "Shutting down..."] from rfl]
    exact List.getLast?_concat _
  · intro launch cmds
    cases launch with
    | some e => simp [playwright_worker]
    | none =>
      simp only [playwright_worker]
      split <;> omega

/-- Witness for C9 at a concrete command sequence. -/
theorem shutdown_final_witness :
    ((playwright_worker none (fun _ => ([], none))
        ([Command.verify_login] ++ Command.shutdown :: [Command.open_login_page])).1.getLast? =
      some (Event.status_update "Shutting down...")) ∧
    (playwright_worker none (fun _ => ([], none))
        ([Command.verify_login] ++ Command.shutdown :: [Command.open_login_page])).2 ≤ 1 := by
  have h := shutdown_final (fun _ => ([], none))
    [Command.verify_login] [Command.open_login_page] (by decide)
  exact ⟨h.2.1, h.2.2 none _⟩

/-! ### ECR helper lemmas -/

/-- A row whose wage-month text does not parse is skipped: the caught
`ValueError` leaves no event and no download. -/
theorem ecrRowStep_skip {sd ed : PyDate} {r : EcrRow} {wm st : String}
    (hwm : r.wageMonth = .ok wm) (hst : r.status = .ok st)
    (hpc : pyStrip st = "Payment Confirmed") (hparse : ecrParseWage wm = none) :
    ecrRowStep sd ed r = ([], none) := by
  simp only [ecrRowStep, ecrRowRaw, hwm, hst, if_pos hpc, hparse]

/-- The row loop distributes over append. -/
theorem ecrRowsLoop_append (sd ed : PyDate) (l₁ l₂ : List EcrRow) :
    ecrRowsLoop sd ed (l₁ ++ l₂) =
      ((ecrRowsLoop sd ed l₁).1 ++ (ecrRowsLoop sd ed l₂).1,
       (ecrRowsLoop sd ed l₁).2 ++ (ecrRowsLoop sd ed l₂).2) := by
  induction l₁ with
  | nil => simp [ecrRowsLoop]
  | cons r rs ih => simp [ecrRowsLoop, ih, List.append_assoc]

/-- The page loop distributes over append. -/
theorem ecrPagesLoop_append (sd ed : PyDate) (l₁ l₂ : List (List EcrRow)) :
    ecrPagesLoop sd ed (l₁ ++ l₂) =
      ((ecrPagesLoop sd ed l₁).1 ++ (ecrPagesLoop sd ed l₂).1,
       (ecrPagesLoop sd ed l₁).2 ++ (ecrPagesLoop sd ed l₂).2) := by
  induction l₁ with
  | nil => simp [ecrPagesLoop]
  | cons pg pgs ih => simp [ecrPagesLoop, ih, List.append_assoc]

/-! ### C1, C7: the ECR row filter and month parsing -/

/-- C1: for a row whose cells are readable, the download step (the
`Downloading PDF for …` branch) is reached iff the stripped status cell
equals Payment Confirmed and the wage month parses to a date inside the
inclusive range; and a Payment Confirmed row whose wage month does not
parse is dropped from its page without disturbing the other rows or
pages. -/
theorem ecr_row_filter :
    (∀ (sd ed : PyDate) (r : EcrRow) (wm st tr : String),
      r.wageMonth = .ok wm → r.status = .ok st → r.trrn = .ok tr →
      ((ecrRowStep sd ed r).1 =
          [Event.status_update ("Downloading PDF for " ++ pyStrip tr ++ "...")] ↔
        (pyStrip st = "Payment Confirmed" ∧
          ∃ d, ecrParseWage wm = some d ∧ pyDateLe sd d = true ∧ pyDateLe d ed = true)))
  ∧ (∀ (sd ed : PyDate) (pgs₁ : List (List EcrRow)) (rs₁ : List EcrRow) (r : EcrRow)
      (rs₂ : List EcrRow) (pgs₂ : List (List EcrRow)) (wm st : String),
      r.wageMonth = .ok wm → r.status = .ok st →
      pyStrip st = "Payment Confirmed" → ecrParseWage wm = none →
      ecrPagesLoop sd ed (pgs₁ ++ (rs₁ ++ r :: rs₂) :: pgs₂) =
        ecrPagesLoop sd ed (pgs₁ ++ (rs₁ ++ rs₂) :: pgs₂)) := by
  constructor
  · intro sd ed r wm st tr hwm hst htr
    by_cases hpc : pyStrip st = "Payment Confirmed"
    · cases hparse : ecrParseWage wm with
      | none =>
        simp only [ecrRowStep, ecrRowRaw, hwm, hst, if_pos hpc, hparse]
        simp [hpc, hparse]
      | some d =>
        by_cases hle : (pyDateLe sd d && pyDateLe d ed) = true
        · have hev : (ecrRowStep sd ed r).1 =
              [Event.status_update ("Downloading PDF for " ++ pyStrip tr ++ "...")] := by
            simp only [ecrRowStep, ecrRowRaw, hwm, hst, if_pos hpc, hparse, if_pos hle, htr]
            by_cases hl : r.linkCount > 0
            · cases hlf : r.linkFail <;> simp [hlf, hl]
            · simp [hl]
          rw [hev]
          rw [Bool.and_eq_true] at hle
          obtain ⟨h1, h2⟩ := hle
          simp [hpc, hparse, h1, h2]
        · simp only [ecrRowStep, ecrRowRaw, hwm, hst, if_pos hpc, hparse, if_neg hle]
          constructor
          · intro h
            exact absurd h (by simp)
          · rintro ⟨-, d', hd', hle1, hle2⟩
            injection hd' with hdd
            subst hdd
            exact absurd (by simp [hle1, hle2]) hle
    · simp only [ecrRowStep, ecrRowRaw, hwm, hst, if_neg hpc]
      simp [hpc]
  · intro sd ed pgs₁ rs₁ r rs₂ pgs₂ wm st hwm hst hpc hparse
    have hstep : ecrRowStep sd ed r = ([], none) := ecrRowStep_skip hwm hst hpc hparse
    rw [ecrPagesLoop_append, ecrPagesLoop_append]
    have hmid : ecrRowsLoop sd ed (rs₁ ++ r :: rs₂) = ecrRowsLoop sd ed (rs₁ ++ rs₂) := by
      rw [ecrRowsLoop_append, ecrRowsLoop_append]
      have : ecrRowsLoop sd ed (r :: rs₂) = ecrRowsLoop sd ed rs₂ := by
        simp [ecrRowsLoop, hstep]
      rw [this]
    simp [ecrPagesLoop, hmid]

/-- Witness for C1: a Payment Confirmed row inside the range reaches the
download step; an unparseable Payment Confirmed row vanishes from its
page. -/
theorem ecr_row_filter_witness :
    ((ecrRowStep ⟨2024, 1⟩ ⟨2024, 3⟩
        ⟨.ok "Feb-2024", .ok " TR1 ", .ok "Payment Confirmed", 1, none⟩).1 =
      [Event.status_update ("Downloading PDF for " ++ pyStrip " TR1 " ++ "...")]) ∧
    (ecrPagesLoop ⟨2024, 1⟩ ⟨2024, 3⟩
        ([] ++ ([] ++ (⟨.ok "Foo-2024", .ok "x", .ok "Payment Confirmed", 1, none⟩ : EcrRow) :: []) :: []) =
      ecrPagesLoop ⟨2024, 1⟩ ⟨2024, 3⟩ ([] ++ ([] ++ []) :: [])) := by
  constructor
  · exact (ecr_row_filter.1 ⟨2024, 1⟩ ⟨2024, 3⟩
      ⟨.ok "Feb-2024", .ok " TR1 ", .ok "Payment Confirmed", 1, none⟩
      "Feb-2024" "Payment Confirmed" " TR1 " rfl rfl rfl).mpr
      ⟨rfl, ⟨2024, 2⟩, by decide, by decide, by decide⟩
  · exact ecr_row_filter.2 ⟨2024, 1⟩ ⟨2024, 3⟩ [] []
      ⟨.ok "Foo-2024", .ok "x", .ok "Payment Confirmed", 1, none⟩ [] []
      "Foo-2024" "Payment Confirmed" rfl rfl (by decide) (by decide)

/-- C7: `get_month_index` is case-normalizing and total — a string whose
title-casing is a month abbreviation yields that month's 1-based index
(between 1 and 12), anything else yields the sentinel `-1`; and in the
ECR loop the sentinel makes `datetime` raise a caught `ValueError`, so
the affected row is skipped without crashing the row loop. -/
theorem month_parse_total :
    (∀ s : String, pyTitle s ∈ months →
      1 ≤ get_month_index s ∧ get_month_index s ≤ 12 ∧
      months.getD ((get_month_index s).toNat - 1) "" = pyTitle s)
  ∧ (∀ s : String, pyTitle s ∉ months → get_month_index s = -1)
  ∧ (∀ (sd ed : PyDate) (r : EcrRow) (rs : List EcrRow) (wm st m y : String),
      r.wageMonth = .ok wm → r.status = .ok st → pyStrip st = "Payment Confirmed" →
      pySplitChar '-' wm = [m, y] → pyTitle m ∉ months →
      ecrRowsLoop sd ed (r :: rs) = ecrRowsLoop sd ed rs) := by
  refine ⟨?_, ?_, ?_⟩
  · intro s hmem
    have h12 : pyTitle s = "Jan" ∨ pyTitle s = "Feb" ∨ pyTitle s = "Mar" ∨
        pyTitle s = "Apr" ∨ pyTitle s = "May" ∨ pyTitle s = "Jun" ∨
        pyTitle s = "Jul" ∨ pyTitle s = "Aug" ∨ pyTitle s = "Sep" ∨
        pyTitle s = "Oct" ∨ pyTitle s = "Nov" ∨ pyTitle s = "Dec" := by
      simpa [months] using hmem
    rcases h12 with h|h|h|h|h|h|h|h|h|h|h|h <;>
      · simp only [get_month_index, h]
        decide
  · intro s hmem
    simp only [get_month_index, pyListIndex_of_not_mem hmem]
  · intro sd ed r rs wm st m y hwm hst hpc hsplit hm
    have hidx : get_month_index m = -1 := by
      simp only [get_month_index, pyListIndex_of_not_mem hm]
    have hparse : ecrParseWage wm = none := by
      simp only [ecrParseWage, hsplit]
      cases hy : pyInt y with
      | none => rfl
      | some yv =>
        simp only [mk_datetime, hidx]
        rw [if_neg]
        intro hcon
        omega
    have hstep : ecrRowStep sd ed r = ([], none) := ecrRowStep_skip hwm hst hpc hparse
    simp [ecrRowsLoop, hstep]

/-- Witness for C7: a lowercase month name, an unrecognized name, and a
row skipped by the sentinel. -/
theorem month_parse_total_witness :
    (1 ≤ get_month_index "jAn" ∧ get_month_index "jAn" ≤ 12 ∧
      months.getD ((get_month_index "jAn").toNat - 1) "" = pyTitle "jAn") ∧
    get_month_index "Foo" = -1 ∧
    ecrRowsLoop ⟨2024, 1⟩ ⟨2024, 3⟩
        [⟨.ok "Foo-2024", .ok "t", .ok "Payment Confirmed", 0, none⟩] =
      ecrRowsLoop ⟨2024, 1⟩ ⟨2024, 3⟩ [] := by
  refine ⟨month_parse_total.1 "jAn" (by decide),
    month_parse_total.2.1 "Foo" (by decide),
    month_parse_total.2.2 ⟨2024, 1⟩ ⟨2024, 3⟩
      ⟨.ok "Foo-2024", .ok "t", .ok "Payment Confirmed", 0, none⟩ []
      "Foo-2024" "Payment Confirmed" "Foo" "2024" rfl rfl (by decide) (by decide) (by decide)⟩

/-! ### UAN helper lemmas -/

/-- The record one UAN contributes to the output, if any. -/
def uanRow (fetch : String → Except String (String × String × String)) (u : String) :
    Option (List String) :=
  match fetch u with
  | .ok (n, j, x) => some [u, pyStrip n, pyStrip j, pyStrip x]
  | .error _ => none

theorem uanLoop_rows (fetch : String → Except String (String × String × String)) :
    ∀ us : List String, (uanLoop fetch us).2 = us.filterMap (uanRow fetch) := by
  intro us
  induction us with
  | nil => rfl
  | cons u us ih =>
    simp only [uanLoop, List.filterMap_cons]
    cases hf : fetch u with
    | ok t =>
      obtain ⟨n, j, x⟩ := t
      simp [uanRow, hf, ih]
    | error e => simp [uanRow, hf, ih]

theorem uanRows_length (fetch : String → Except String (String × String × String)) :
    ∀ us : List String,
      (us.filterMap (uanRow fetch)).length = us.countP (fun u => exOk (fetch u)) := by
  intro us
  induction us with
  | nil => rfl
  | cons u us ih =>
    simp only [List.filterMap_cons, List.countP_cons]
    cases hf : fetch u with
    | ok t =>
      obtain ⟨n, j, x⟩ := t
      simp [uanRow, hf, ih, exOk]
    | error e => simp [uanRow, hf, ih, exOk]

theorem uanRow_head {fetch : String → Except String (String × String × String)}
    {u : String} {r : List String} (h : uanRow fetch u = some r) : r.head? = some u := by
  unfold uanRow at h
  cases hf : fetch u with
  | ok t =>
    obtain ⟨n, j, x⟩ := t
    rw [hf] at h
    injection h with h'
    rw [← h']
    rfl
  | error e => rw [hf] at h; cases h

theorem uanRows_count_le (fetch : String → Except String (String × String × String)) :
    ∀ us : List String, us.Nodup → ∀ u : String,
      (us.filterMap (uanRow fetch)).countP (fun r => decide (r.head? = some u)) ≤ 1 := by
  intro us
  induction us with
  | nil => intro _ u; simp
  | cons v vs ih =>
    intro hnd u
    rw [List.nodup_cons] at hnd
    obtain ⟨hv, hnd'⟩ := hnd
    simp only [List.filterMap_cons]
    cases hr : uanRow fetch v with
    | none => exact ih hnd' u
    | some row =>
      have hhead : row.head? = some v := uanRow_head hr
      rw [List.countP_cons]
      by_cases hu : u = v
      · subst hu
        have hzero : (vs.filterMap (uanRow fetch)).countP
            (fun r => decide (r.head? = some u)) = 0 := by
          rw [List.countP_eq_zero]
          intro r hrm
          rcases List.mem_filterMap.mp hrm with ⟨w, hw, hrw⟩
          have : r.head? = some w := uanRow_head hrw
          simp only [this, decide_eq_true_eq]
          intro hc
          injection hc with hc'
          exact hv (hc' ▸ hw)
        rw [hzero]
        simp [hhead]
      · have : (decide (row.head? = some u)) = false := by
          simp only [hhead, decide_eq_false_iff_not]
          intro hc
          injection hc with hc'
          exact hu hc'.symm
        rw [this]
        simpa using ih hnd' u

/-! ### C6: the UAN output table -/

/-- C6 as stated is false on the code: a duplicated requested UAN
produces one output row per occurrence, so a requested UAN can appear
more than once in the table. -/
theorem uan_duplicate_uan_rows :
    (run_uan_extraction ⟨none, fun _ => .ok ("N", "J", "X")⟩ ["7", "7"] "o.xlsx").2 =
      some ("o.xlsx", uanColumns, [["7", "N", "J", "X"], ["7", "N", "J", "X"]]) ∧
    ¬ (([["7", "N", "J", "X"], ["7", "N", "J", "X"]] : List (List String)).countP
        (fun r => decide (r.head? = some "7")) ≤ 1) := by
  decide

/-- C6 amended: provided the requested UANs are pairwise distinct, the
output table has exactly M rows (M the number of successful reads), in
the fixed column order, with each requested UAN appearing at most once;
when M = 0 no file is written and the no-data info event is emitted. -/
theorem uan_output_shape :
    ∀ (env : UanEnv) (uans : List String) (out : String),
      env.nav = none → uans.Nodup →
      ((uans.countP (fun u => exOk (env.fetch u)) = 0 →
        (run_uan_extraction env uans out).2 = none ∧
        Event.info "No UAN data was extracted." ∈ (run_uan_extraction env uans out).1) ∧
      (uans.countP (fun u => exOk (env.fetch u)) ≠ 0 →
        (run_uan_extraction env uans out).2 =
          some (out, uanColumns, (uanLoop env.fetch uans).2) ∧
        (uanLoop env.fetch uans).2.length = uans.countP (fun u => exOk (env.fetch u)) ∧
        ∀ u : String,
          ((uanLoop env.fetch uans).2.countP (fun r => decide (r.head? = some u))) ≤ 1)) := by
  intro env uans out hnav hnd
  have hrows : (uanLoop env.fetch uans).2 = uans.filterMap (uanRow env.fetch) :=
    uanLoop_rows env.fetch uans
  have hlen : (uanLoop env.fetch uans).2.length =
      uans.countP (fun u => exOk (env.fetch u)) := by
    rw [hrows]; exact uanRows_length env.fetch uans
  constructor
  · intro hM
    have hemp : (uanLoop env.fetch uans).2 = [] := by
      have : (uanLoop env.fetch uans).2.length = 0 := by rw [hlen, hM]
      exact List.length_eq_zero.mp this
    simp only [run_uan_extraction, hnav, hemp]
    simp
  · intro hM
    have hne : ¬ (uanLoop env.fetch uans).2.isEmpty = true := by
      intro hco
      rw [List.isEmpty_iff] at hco
      rw [hco] at hlen
      exact hM (by simpa using hlen.symm)
    refine ⟨?_, hlen, ?_⟩
    · simp only [run_uan_extraction, hnav]
      rw [if_neg hne]
    · intro u
      rw [hrows]
      exact uanRows_count_le env.fetch uans hnd u

/-- Witness for C6 (amended) at a run where no UAN succeeds. -/
theorem uan_output_shape_witness :
    (run_uan_extraction ⟨none, fun _ => .error "e"⟩ ["1", "2"] "o.xlsx").2 = none ∧
    Event.info "No UAN data was extracted." ∈
      (run_uan_extraction ⟨none, fun _ => .error "e"⟩ ["1", "2"] "o.xlsx").1 := by
  exact (uan_output_shape ⟨none, fun _ => .error "e"⟩ ["1", "2"] "o.xlsx" rfl
    (by decide)).1 (by decide)

/-! ### MSD helper lemmas -/

/-- Two strings with different first characters differ, whatever is
appended to the first. -/
theorem append_ne_of_head (p q x : String) (hne : p.data.head? ≠ q.data.head?)
    (hp : p.data ≠ []) : ¬ (p ++ x = q) := by
  intro he
  apply hne
  have hd : p.data ++ x.data = q.data := by rw [← String.data_append, he]
  cases hpd : p.data with
  | nil => exact absurd hpd hp
  | cons a t =>
    rw [hpd] at hd
    rw [← hd]
    rfl

/-- A per-UAN progress status is never the final MSD status. -/
theorem processing_ne_finished (u : String) :
    Event.status_update ("Processing UAN: " ++ u) ≠
      Event.status_update "Member Service Detail extraction finished." := by
  intro h
  injection h with h'
  exact append_ne_of_head "Processing UAN: "
    "Member Service Detail extraction finished." u (by decide) (by decide) h'

/-- A pagination status is never the final MSD status. -/
theorem paging_ne_finished (u : String) :
    Event.status_update ("UAN " ++ u ++ ": Found multiple pages, going to next page...") ≠
      Event.status_update "Member Service Detail extraction finished." := by
  intro h
  injection h with h'
  rw [String.append_assoc] at h'
  exact append_ne_of_head "UAN "
    "Member Service Detail extraction finished."
    (u ++ ": Found multiple pages, going to next page...") (by decide) (by decide) h'

/-- Every event emitted by the pagination loop is the next-page status
update. -/
theorem msdPagesLoop_events (uan : String) :
    ∀ (ps : List MsdPage) (acc : List (List String)) (e : Event),
      e ∈ (msdPagesLoop uan ps acc).1 →
      e = Event.status_update
        ("UAN " ++ uan ++ ": Found multiple pages, going to next page...") := by
  intro ps
  induction ps with
  | nil => intro acc e he; simp [msdPagesLoop] at he
  | cons p ps ih =>
    intro acc e he
    unfold msdPagesLoop at he
    split at he
    · simp at he
    · split at he
      · simp at he
      · split at he
        · simp at he
        · split at he
          · simp at he
            exact he
          · simp only [List.mem_cons] at he
            rcases he with he | he
            · exact he
            · exact ih _ e he

/-- The events of one UAN scrape are empty or exactly the pagination
loop's events. -/
theorem msdScrapeUan_events_eq (uan : String) (env : MsdUanEnv) :
    (msdScrapeUan uan env).1 = [] ∨
    (msdScrapeUan uan env).1 = (msdPagesLoop uan env.pages []).1 := by
  unfold msdScrapeUan
  split
  · left; rfl
  · split
    · left; rfl
    · split
      · next evs e heq => right; rw [heq]
      · next evs rows heq => right; rw [heq]

/-- Every event emitted while scraping one UAN is a pagination status
update. -/
theorem msdScrapeUan_events (uan : String) (env : MsdUanEnv) (e : Event)
    (he : e ∈ (msdScrapeUan uan env).1) :
    e = Event.status_update
      ("UAN " ++ uan ++ ": Found multiple pages, going to next page...") := by
  rcases msdScrapeUan_events_eq uan env with h | h
  · rw [h] at he; simp at he
  · rw [h] at he; exact msdPagesLoop_events uan env.pages [] e he

/-- Scraping one UAN emits no error events. -/
theorem msdScrapeUan_no_error (uan : String) (env : MsdUanEnv) :
    (msdScrapeUan uan env).1.countP Event.isError = 0 := by
  rw [List.countP_eq_zero]
  intro e he
  rw [msdScrapeUan_events uan env e he]
  simp [Event.isError]

/-- Scraping one UAN never emits the final MSD status. -/
theorem msdScrapeUan_no_finished (uan : String) (env : MsdUanEnv) :
    Event.status_update "Member Service Detail extraction finished." ∉
      (msdScrapeUan uan env).1 := by
  intro he
  exact paging_ne_finished uan (msdScrapeUan_events uan env _ he).symm

/-- Row reading relates input rows and output rows pointwise: each
output row is the cell texts of the matching input row minus its first
cell. -/
theorem readRowsOfPage_forall2 :
    ∀ {rows : List (List (Except String String))} {rs : List (List String)},
      readRowsOfPage rows = .ok rs →
      List.Forall₂ (fun cells r => readCells (cells.drop 1) = Except.ok r) rows rs := by
  intro rows
  induction rows with
  | nil =>
    intro rs h
    injection h with h'
    rw [← h']
    exact List.Forall₂.nil
  | cons c cs ih =>
    intro rs h
    unfold readRowsOfPage at h
    cases hc : readCells (c.drop 1) with
    | error e => rw [hc] at h; cases h
    | ok t =>
      rw [hc] at h
      cases hrest : readRowsOfPage cs with
      | error e => rw [hrest] at h; cases h
      | ok ts =>
        rw [hrest] at h
        injection h with h'
        rw [← h']
        exact List.Forall₂.cons hc (ih hrest)

/-- Pointwise-related lists: every member of the right list has a
related member on the left. -/
theorem mem_right_of_forall2 {α β : Type} {R : α → β → Prop} :
    ∀ {l₁ : List α} {l₂ : List β}, List.Forall₂ R l₁ l₂ → ∀ b ∈ l₂, ∃ a ∈ l₁, R a b := by
  intro l₁ l₂ h
  induction h with
  | nil => intro b hb; simp at hb
  | @cons a b t₁ t₂ hab htail ih =>
    intro c hc
    rcases List.mem_cons.mp hc with hc | hc
    · exact ⟨a, List.mem_cons_self a t₁, by rw [hc]; exact hab⟩
    · rcases ih c hc with ⟨x, hx, hxc⟩
      exact ⟨x, List.mem_cons_of_mem a hx, hxc⟩

/-- Each successfully read row of a page comes from one of its scraped
rows with the first cell dropped. -/
theorem readRowsOfPage_mem {rows : List (List (Except String String))}
    {rs : List (List String)} (h : readRowsOfPage rows = .ok rs) :
    ∀ r ∈ rs, ∃ cells ∈ rows, readCells (cells.drop 1) = .ok r :=
  mem_right_of_forall2 (readRowsOfPage_forall2 h)

/-- Every row collected by the pagination loop is either carried in from
the accumulator or is the dropped-first-cell reading of a scraped row of
one of the pages. -/
theorem msdPagesLoop_mem (uan : String) :
    ∀ (ps : List MsdPage) (acc res : List (List String)),
      (msdPagesLoop uan ps acc).2 = .ok res →
      ∀ r ∈ res, r ∈ acc ∨ ∃ p ∈ ps, ∃ cells ∈ p.rows, readCells (cells.drop 1) = .ok r := by
  intro ps
  induction ps with
  | nil =>
    intro acc res h r hr
    simp only [msdPagesLoop] at h
    injection h with h'
    rw [← h'] at hr
    exact Or.inl hr
  | cons p ps ih =>
    intro acc res h r hr
    unfold msdPagesLoop at h
    split at h
    · injection h with h'
      rw [← h'] at hr
      exact Or.inl hr
    · split at h
      · cases h
      · next newRows hrows =>
        split at h
        · injection h with h'
          rw [← h'] at hr
          rcases List.mem_append.mp hr with hr | hr
          · exact Or.inl hr
          · rcases readRowsOfPage_mem hrows r hr with ⟨cells, hc, hcc⟩
            exact Or.inr ⟨p, List.mem_cons_self p ps, cells, hc, hcc⟩
        · split at h
          · cases h
          · have := ih (acc ++ newRows) res h r hr
            rcases this with hin | ⟨p', hp', cells, hc, hcc⟩
            · rcases List.mem_append.mp hin with hr2 | hr2
              · exact Or.inl hr2
              · rcases readRowsOfPage_mem hrows r hr2 with ⟨cells, hc, hcc⟩
                exact Or.inr ⟨p, List.mem_cons_self p ps, cells, hc, hcc⟩
            · exact Or.inr ⟨p', List.mem_cons_of_mem p hp', cells, hc, hcc⟩

/-- If the UANs before `u` scrape successfully and `u`'s scrape raises a
`PlaywrightError`, the per-UAN loop stops at `u`: the tail after `u` is
irrelevant, the abort flag is set, the last event is the single error
event, and the final status never appears. -/
theorem msdLoop_abort (perUan : String → MsdUanEnv) :
    ∀ (l₁ : List String) (u : String) (l₂ : List String) (e : String),
      (∀ v ∈ l₁, exOk (msdScrapeUan v (perUan v)).2 = true) →
      (msdScrapeUan u (perUan u)).2 = .error e →
      (msdLoop perUan (l₁ ++ u :: l₂) = msdLoop perUan (l₁ ++ [u])) ∧
      (msdLoop perUan (l₁ ++ [u])).2.2 = true ∧
      (msdLoop perUan (l₁ ++ [u])).1.getLast? =
        some (Event.error ("An error occurred during MSD extraction: " ++ e)) ∧
      (msdLoop perUan (l₁ ++ [u])).1.countP Event.isError = 1 ∧
      Event.status_update "Member Service Detail extraction finished." ∉
        (msdLoop perUan (l₁ ++ [u])).1 := by
  intro l₁
  induction l₁ with
  | nil =>
    intro u l₂ e h1 h2
    cases hs : msdScrapeUan u (perUan u) with
    | mk sev res =>
      have hres : res = .error e := by rw [hs] at h2; exact h2
      subst hres
      have hno : sev.countP Event.isError = 0 := by
        have hh := msdScrapeUan_no_error u (perUan u)
        rw [hs] at hh
        exact hh
      have hsev : ∀ ev ∈ sev, ev = Event.status_update
          ("UAN " ++ u ++ ": Found multiple pages, going to next page...") := by
        intro ev hev
        exact msdScrapeUan_events u (perUan u) ev (by rw [hs]; exact hev)
      refine ⟨?_, ?_, ?_, ?_, ?_⟩
      · simp only [List.nil_append, msdLoop, hs]
      · simp only [List.nil_append, msdLoop, hs]
      · simp only [List.nil_append, msdLoop, hs]
        exact lastOfAppend (Event.status_update ("Processing UAN: " ++ u) :: sev) rfl
      · simp only [List.nil_append, msdLoop, hs]
        simp [List.countP_cons, List.countP_append, hno, Event.isError]
      · simp only [List.nil_append, msdLoop, hs]
        intro hm
        rcases List.mem_cons.mp hm with hm | hm
        · exact processing_ne_finished u hm.symm
        · rcases List.mem_append.mp hm with hm | hm
          · exact paging_ne_finished u (hsev _ hm).symm
          · simp at hm
  | cons v vs ih =>
    intro u l₂ e h1 h2
    have hv : exOk (msdScrapeUan v (perUan v)).2 = true := h1 v (List.mem_cons_self v vs)
    have h1' : ∀ w ∈ vs, exOk (msdScrapeUan w (perUan w)).2 = true :=
      fun w hw => h1 w (List.mem_cons_of_mem v hw)
    have IH := ih u l₂ e h1' h2
    cases hs : msdScrapeUan v (perUan v) with
    | mk sev res =>
      rw [hs] at hv
      cases res with
      | error e2 => simp [exOk] at hv
      | ok pr =>
        obtain ⟨headers, rows⟩ := pr
        have hno : sev.countP Event.isError = 0 := by
          have hh := msdScrapeUan_no_error v (perUan v)
          rw [hs] at hh
          exact hh
        have hsev : ∀ ev ∈ sev, ev = Event.status_update
            ("UAN " ++ v ++ ": Found multiple pages, going to next page...") := by
          intro ev hev
          exact msdScrapeUan_events v (perUan v) ev (by rw [hs]; exact hev)
        refine ⟨?_, ?_, ?_, ?_, ?_⟩
        · simp only [List.cons_append, List.append_eq, msdLoop, hs]
          rw [IH.1]
        · simp only [List.cons_append, List.append_eq, msdLoop, hs]
          exact IH.2.1
        · simp only [List.cons_append, List.append_eq, msdLoop, hs]
          exact lastOfAppend (Event.status_update ("Processing UAN: " ++ v) :: sev) IH.2.2.1
        · simp only [List.cons_append, List.append_eq, msdLoop, hs]
          simp [List.countP_cons, List.countP_append, hno, IH.2.2.2.1, Event.isError]
        · simp only [List.cons_append, List.append_eq, msdLoop, hs]
          intro hm
          rcases List.mem_cons.mp hm with hm | hm
          · exact processing_ne_finished v hm.symm
          · rcases List.mem_append.mp hm with hm | hm
            · exact paging_ne_finished v (hsev _ hm).symm
            · exact IH.2.2.2.2 hm

/-! ### Concrete MSD environments used by counterexamples and witnesses -/

/-- A one-page grid whose single row has fewer data cells than the
headers: headers scrape to two names, the row to one cell. -/
def msdUanArity : MsdUanEnv :=
  ⟨none, .ok ["#", "A", "B"],
   [⟨[[.ok "1", .ok "x"]], "", some "ui-state-disabled", none⟩]⟩

/-- An MSD run environment serving `msdUanArity` for every UAN. -/
def msdEnvArity : MsdEnv := ⟨none, fun _ => msdUanArity⟩

/-- A one-page grid whose single row raises a `PlaywrightError` while
its second cell is read. -/
def msdUanRowFail : MsdUanEnv :=
  ⟨none, .ok ["#", "A"],
   [⟨[[.ok "1", .error "boom"]], "", some "ui-state-disabled", none⟩]⟩

/-- A UAN whose search yields an empty grid. -/
def msdUanEmpty : MsdUanEnv := ⟨none, .ok [], []⟩

/-- An MSD run environment where UAN `U1` hits the failing row. -/
def msdEnvRowFail : MsdEnv :=
  ⟨none, fun u => if u = "U1" then msdUanRowFail else msdUanEmpty⟩

/-! ### C2: header/row arity -/

/-- C2 as stated is false on the code: a retained row whose cell count
differs from the header count is not dropped — it is kept and passed to
serialization. -/
theorem msd_arity_mismatch_retained :
    (run_msd_extraction msdEnvArity ["U"]).files =
      [("msd_excel_files/U.xlsx", ["A", "B"], [["x"]])] ∧
    (run_msd_extraction msdEnvArity ["U"]).files.countP
      (fun f => f.2.2.all (fun row => row.length == f.2.1.length)) = 0 := by
  decide

/-- C2 amended: no arity check exists — on a cleanly read single result
page every scraped row is retained in order with exactly its first cell
dropped, whatever its length relative to the headers. -/
theorem msd_rows_retained :
    ∀ (uan : String) (env : MsdUanEnv) (p : MsdPage) (raw : List String)
      (rs : List (List String)),
      env.search = none → env.headersRead = .ok raw → env.pages = [p] →
      p.rows.isEmpty = false →
      strHasSub (p.nextClass.getD "") "ui-state-disabled" = true →
      readRowsOfPage p.rows = .ok rs →
      (msdScrapeUan uan env).2 = .ok (msdHeaders raw, rs) ∧
      rs.length = p.rows.length ∧
      List.Forall₂ (fun cells r => readCells (cells.drop 1) = Except.ok r) p.rows rs := by
  intro uan env p raw rs hsearch hh hpages hne hdis hread
  have hf2 := readRowsOfPage_forall2 hread
  have hloop : msdPagesLoop uan [p] [] = ([], .ok rs) := by
    simp [msdPagesLoop, hne, hread, hdis]
  refine ⟨?_, hf2.length_eq.symm, hf2⟩
  unfold msdScrapeUan
  simp only [hsearch, hh, hpages, hloop]

/-- Witness for C2 (amended) at the concrete mismatched-arity grid. -/
theorem msd_rows_retained_witness :
    (msdScrapeUan "U" msdUanArity).2 =
      .ok (msdHeaders ["#", "A", "B"], [["x"]]) ∧
    ([["x"]] : List (List String)).length =
      ([[Except.ok "1", Except.ok "x"]] : List (List (Except String String))).length := by
  have h := msd_rows_retained "U" msdUanArity
    ⟨[[.ok "1", .ok "x"]], "", some "ui-state-disabled", none⟩
    ["#", "A", "B"] [["x"]] rfl rfl rfl rfl (by decide) rfl
  exact ⟨h.1, h.2.1⟩

/-! ### C8: what is dropped from headers and rows -/

/-- C8 as stated is false on the code: besides the first column, every
header that is blank after stripping is also removed, so more than one
header can be dropped. -/
theorem msd_header_drop_counterexample :
    msdHeaders ["1", "A", " ", "B"] = ["A", "B"] ∧
    ["1", "A", " ", "B"].drop 1 = ["A", " ", "B"] ∧
    msdHeaders ["1", "A", " ", "B"] ≠ ["1", "A", " ", "B"].drop 1 ∧
    (msdHeaders ["1", "A", " ", "B"]).length ≠ ["1", "A", " ", "B"].length - 1 := by
  decide

/-- C8 amended: the headers used for a UAN are the scraped header texts
stripped, with blank headers removed, and then the first remaining
header dropped; each collected row is some scraped row's cells with
exactly the first cell dropped, in original order. -/
theorem msd_scrape_shape :
    ∀ (uan : String) (env : MsdUanEnv) (raw : List String) (names : List String)
      (rows : List (List String)),
      env.headersRead = .ok raw →
      (msdScrapeUan uan env).2 = .ok (names, rows) →
      names = ((raw.map pyStrip).filter (fun h => h != "")).drop 1 ∧
      ∀ r ∈ rows, ∃ p ∈ env.pages, ∃ cells ∈ p.rows, readCells (cells.drop 1) = .ok r := by
  intro uan env raw names rows hh hset
  unfold msdScrapeUan at hset
  cases hsearch : env.search with
  | some e => rw [hsearch] at hset; cases hset
  | none =>
    rw [hsearch, hh] at hset
    cases hl : msdPagesLoop uan env.pages [] with
    | mk evs res =>
      rw [hl] at hset
      cases res with
      | error e => simp at hset
      | ok rows2 =>
        simp only [Except.ok.injEq, Prod.mk.injEq] at hset
        obtain ⟨hnames, hrows⟩ := hset
        constructor
        · rw [← hnames]; rfl
        · intro r hr
          have h2 : (msdPagesLoop uan env.pages []).2 = .ok rows2 := by rw [hl]
          have := msdPagesLoop_mem uan env.pages [] rows2 h2 r (by rw [← hrows] at hr; exact hr)
          rcases this with hin | hout
          · simp at hin
          · exact hout

/-- Witness for C8 (amended): the concrete header postprocessing. -/
theorem msd_scrape_shape_witness :
    (["A", "B"] : List String) =
      ((["#", "A", "B"].map pyStrip).filter (fun h => h != "")).drop 1 :=
  (msd_scrape_shape "U" msdUanArity ["#", "A", "B"] ["A", "B"] [["x"]]
    rfl (by decide)).1

/-! ### C4: row-level failure policy across the three protocols -/

/-- C4 as stated is false on the code: in the MSD protocol a single
row's extraction failure is escalated to an error event and the
remaining UANs are never processed. -/
theorem msd_row_failure_escalates :
    Event.error "An error occurred during MSD extraction: boom" ∈
      (run_msd_extraction msdEnvRowFail ["U1", "U2"]).events ∧
    Event.status_update "Processing UAN: U2" ∉
      (run_msd_extraction msdEnvRowFail ["U1", "U2"]).events ∧
    (run_msd_extraction msdEnvRowFail ["U1", "U2"]).zipName = none := by
  decide

/-- C4 amended: in the ECR and UAN protocols a failed record is logged
and skipped with the surrounding loop continuing; in `run_msd_extraction`
a single row's `PlaywrightError` instead escalates to one error event
and aborts the current UAN and all remaining UANs. -/
theorem row_failure_policy :
    (∀ (sd ed : PyDate) (r : EcrRow) (rs : List EcrRow),
      exOk (ecrRowRaw sd ed r).2 = false →
      ecrRowsLoop sd ed (r :: rs) =
        ((ecrRowRaw sd ed r).1 ++ (ecrRowsLoop sd ed rs).1, (ecrRowsLoop sd ed rs).2))
  ∧ (∀ (f : String → Except String (String × String × String)) (u : String)
      (us : List String) (e : String),
      f u = .error e →
      uanLoop f (u :: us) =
        (Event.status_update ("Extracting data for UAN: " ++ u ++ "...") :: (uanLoop f us).1,
         (uanLoop f us).2))
  ∧ (∀ (env : MsdEnv) (u : String) (l₂ : List String) (e : String),
      env.nav = none → (msdScrapeUan u (env.perUan u)).2 = .error e →
      run_msd_extraction env (u :: l₂) = run_msd_extraction env [u] ∧
      (run_msd_extraction env [u]).events.getLast? =
        some (Event.error ("An error occurred during MSD extraction: " ++ e))) := by
  refine ⟨?_, ?_, ?_⟩
  · intro sd ed r rs hfail
    cases hr : (ecrRowRaw sd ed r).2 with
    | ok f => rw [hr] at hfail; simp [exOk] at hfail
    | error e =>
      have hstep : ecrRowStep sd ed r = ((ecrRowRaw sd ed r).1, none) := by
        unfold ecrRowStep
        cases hraw : ecrRowRaw sd ed r with
        | mk evs res2 =>
          rw [hraw] at hr
          have hres : res2 = .error e := hr
          subst hres
          rfl
      simp [ecrRowsLoop, hstep]
  · intro f u us e hf
    simp [uanLoop, hf]
  · intro env u l₂ e hnav h2
    have ha := msdLoop_abort env.perUan [] u l₂ e (by intro v hv; simp at hv) h2
    simp only [List.nil_append] at ha
    constructor
    · simp only [run_msd_extraction, hnav, ha.1]
    · simp only [run_msd_extraction, hnav, ha.2.1, if_true]
      exact lastOfAppend _ ha.2.2.1

/-- Witness for C4 (amended) across the three protocols. -/
theorem row_failure_policy_witness :
    (ecrRowsLoop ⟨2024, 1⟩ ⟨2024, 3⟩
        [⟨.error "gone", .ok "t", .ok "s", 0, none⟩] = ([], [])) ∧
    (uanLoop (fun _ => .error "e") ["u"] =
      ([Event.status_update ("Extracting data for UAN: " ++ "u" ++ "...")], [])) ∧
    (run_msd_extraction msdEnvRowFail ["U1", "U2"] =
      run_msd_extraction msdEnvRowFail ["U1"]) := by
  refine ⟨?_, ?_, ?_⟩
  · have h := row_failure_policy.1 ⟨2024, 1⟩ ⟨2024, 3⟩
      ⟨.error "gone", .ok "t", .ok "s", 0, none⟩ [] (by decide)
    exact h.trans (by decide)
  · have h := row_failure_policy.2.1 (fun _ => .error "e") "u" [] "e" rfl
    exact h.trans (by decide)
  · exact (row_failure_policy.2.2 msdEnvRowFail "U1" ["U2"] "boom" rfl (by decide)).1

/-! ### C10: a PlaywrightError aborts the whole MSD task -/

/-- C10: a `PlaywrightError` during navigation or inside the per-UAN
loop of `run_msd_extraction` produces exactly one error event, the run
returns immediately (the remaining UANs are irrelevant), no zip is
created, the temporary directory is not removed, no written file is
deleted, and the final MSD status is never emitted. -/
theorem msd_playwright_error_abort :
    (∀ (env : MsdEnv) (uans : List String) (e : String),
      env.nav = some e →
      (run_msd_extraction env uans).events.countP Event.isError = 1 ∧
      (run_msd_extraction env uans).events.getLast? =
        some (Event.error ("An error occurred during MSD extraction: " ++ e)) ∧
      (run_msd_extraction env uans).zipName = none ∧
      (run_msd_extraction env uans).dirRemoved = false ∧
      (run_msd_extraction env uans).removed = [] ∧
      Event.status_update "Member Service Detail extraction finished." ∉
        (run_msd_extraction env uans).events)
  ∧ (∀ (env : MsdEnv) (l₁ : List String) (u : String) (l₂ : List String) (e : String),
      env.nav = none →
      (∀ v ∈ l₁, exOk (msdScrapeUan v (env.perUan v)).2 = true) →
      (msdScrapeUan u (env.perUan u)).2 = .error e →
      (run_msd_extraction env (l₁ ++ u :: l₂) = run_msd_extraction env (l₁ ++ [u])) ∧
      (run_msd_extraction env (l₁ ++ [u])).events.countP Event.isError = 1 ∧
      (run_msd_extraction env (l₁ ++ [u])).events.getLast? =
        some (Event.error ("An error occurred during MSD extraction: " ++ e)) ∧
      (run_msd_extraction env (l₁ ++ [u])).zipName = none ∧
      (run_msd_extraction env (l₁ ++ [u])).dirRemoved = false ∧
      (run_msd_extraction env (l₁ ++ [u])).removed = [] ∧
      Event.status_update "Member Service Detail extraction finished." ∉
        (run_msd_extraction env (l₁ ++ [u])).events) := by
  constructor
  · intro env uans e hnav
    simp only [run_msd_extraction, hnav]
    refine ⟨?_, by trivial, by trivial, by trivial, by trivial, ?_⟩
    · simp [List.countP_cons, List.countP_append, Event.isError]
    · intro hm
      rcases List.mem_append.mp hm with hm | hm
      · revert hm; decide
      · simp at hm
  · intro env l₁ u l₂ e hnav h1 h2
    have ha := msdLoop_abort env.perUan l₁ u l₂ e h1 h2
    refine ⟨?_, ?_, ?_, ?_, ?_, ?_, ?_⟩
    · simp only [run_msd_extraction, hnav, ha.1]
    · simp only [run_msd_extraction, hnav, ha.2.1, if_true]
      simp [List.countP_cons, List.countP_append, Event.isError, ha.2.2.2.1]
    · simp only [run_msd_extraction, hnav, ha.2.1, if_true]
      exact lastOfAppend _ ha.2.2.1
    · simp only [run_msd_extraction, hnav, ha.2.1, if_true]
    · simp only [run_msd_extraction, hnav, ha.2.1, if_true]
    · simp only [run_msd_extraction, hnav, ha.2.1, if_true]
    · simp only [run_msd_extraction, hnav, ha.2.1, if_true]
      intro hm
      rcases List.mem_append.mp hm with hm | hm
      · revert hm; decide
      · exact ha.2.2.2.2 hm

/-- Witness for C10 at a concrete run whose second UAN hits the failing
row. -/
theorem msd_playwright_error_abort_witness :
    (run_msd_extraction msdEnvRowFail (["U0"] ++ "U1" :: ["U2"]) =
      run_msd_extraction msdEnvRowFail (["U0"] ++ ["U1"])) ∧
    (run_msd_extraction msdEnvRowFail (["U0"] ++ ["U1"])).zipName = none ∧
    (run_msd_extraction msdEnvRowFail (["U0"] ++ ["U1"])).events.countP Event.isError = 1 := by
  have h := msd_playwright_error_abort.2 msdEnvRowFail ["U0"] "U1" ["U2"] "boom" rfl
    (by decide) (by decide)
  exact ⟨h.1, h.2.2.2.1, h.2.1⟩

end EpfoScraper
